import Mathlib

/-!
Verification of the flow/assertion subsystem of a conversational-agent
acceptance-test engine.

The development shallowly embeds the Python sources:
  * `json_parser.py`   — flow model, JSON-to-model parsing, flow merging;
  * `assertion_validator.py` — path-expression extraction over a turn-result
    record, the eleven-operator rule evaluator, and per-step validation.

Dynamically typed Python values (the JSON payloads flowing through the
system) are embedded as the mutual inductive `Value` / `ValueList` /
`ValueDict`; Python dicts become ordered association lists, which matches
Python's insertion-ordered dict semantics for the operations the sources
use (`get`, `keys`, `items`, `{**a, **b}`).  Python numbers are embedded
as `Int` and `Rat`; fallible operations return `Except`.
-/

mutual

/-- Value is the embedding of a dynamically typed Python/JSON value. -/
inductive Value where
  | null
  | bool (b : Bool)
  | int (n : Int)
  | float (q : Rat)
  | str (s : String)
  | list (vs : ValueList)
  | dict (kvs : ValueDict)
  deriving DecidableEq

/-- ValueList is a Python list of values. -/
inductive ValueList where
  | nil
  | cons (v : Value) (vs : ValueList)
  deriving DecidableEq

/-- ValueDict is a Python dict with string keys, in insertion order. -/
inductive ValueDict where
  | nil
  | cons (k : String) (v : Value) (kvs : ValueDict)
  deriving DecidableEq

end

/-- Conversion of an embedded Python list to a Lean list. -/
def ValueList.toList : ValueList → List Value
  | .nil => []
  | .cons v vs => v :: vs.toList

/-- Conversion of a Lean list to an embedded Python list. -/
def ValueList.ofList : List Value → ValueList
  | [] => .nil
  | v :: vs => .cons v (ValueList.ofList vs)

/-- Python `d.get(k)` — `none` when the key is absent (a stored `None`
is `some .null`, which Python's `get`-with-default also returns). -/
def ValueDict.get : ValueDict → String → Option Value
  | .nil, _ => none
  | .cons k v kvs, key => if k == key then some v else kvs.get key

/-- Python `list(d.keys())` in insertion order. -/
def ValueDict.keys : ValueDict → List String
  | .nil => []
  | .cons k _ kvs => k :: kvs.keys

/-- Python `k in d`. -/
def ValueDict.hasKey : ValueDict → String → Bool
  | .nil, _ => false
  | .cons k _ kvs, key => k == key || kvs.hasKey key

/-- Python `d.items()` as a Lean list of pairs. -/
def ValueDict.items : ValueDict → List (String × Value)
  | .nil => []
  | .cons k v kvs => (k, v) :: kvs.items

/-- Concatenation of two dicts' entry sequences (helper for `{**a, **b}`). -/
def ValueDict.append : ValueDict → ValueDict → ValueDict
  | .nil, b => b
  | .cons k v kvs, b => .cons k v (kvs.append b)

/-- Entries of `a` in order, each value replaced by `b`'s value for the
same key when `b` has one (first half of Python `{**a, **b}`). -/
def ValueDict.overrideVals : ValueDict → ValueDict → ValueDict
  | .nil, _ => .nil
  | .cons k v kvs, b =>
      .cons k (match b.get k with | some w => w | none => v) (kvs.overrideVals b)

/-- Entries of `b` whose key does not occur in `a`, in order (second half
of Python `{**a, **b}`). -/
def ValueDict.restNotIn : ValueDict → ValueDict → ValueDict
  | .nil, _ => .nil
  | .cons k v kvs, a =>
      if a.hasKey k then kvs.restNotIn a else .cons k v (kvs.restNotIn a)

/-- Python `{**a, **b}`: keys of `a` keep their position with `b`'s values
taking precedence; keys only in `b` follow in `b`'s order. -/
def ValueDict.merge (a b : ValueDict) : ValueDict :=
  (a.overrideVals b).append (b.restNotIn a)

/-- Python truthiness (`bool(v)`) for embedded values. -/
def Value.truthy : Value → Bool
  | .null => false
  | .bool b => b
  | .int n => n != 0
  | .float q => q != 0
  | .str s => s != ""
  | .list .nil => false
  | .list (.cons _ _) => true
  | .dict .nil => false
  | .dict (.cons _ _ _) => true

mutual

/-- Python `==` on embedded values: structural, with `int` and `float`
comparing numerically across the two numeric constructors (as `1 == 1.0`
does in Python). -/
def Value.beq : Value → Value → Bool
  | .null, .null => true
  | .bool a, .bool b => a == b
  | .int a, .int b => a == b
  | .float a, .float b => a == b
  | .int a, .float b => (a : Rat) == b
  | .float a, .int b => a == (b : Rat)
  | .str a, .str b => a == b
  | .list a, .list b => ValueList.beq a b
  | .dict a, .dict b => ValueDict.beq a b
  | _, _ => false

/-- Elementwise Python `==` on lists. -/
def ValueList.beq : ValueList → ValueList → Bool
  | .nil, .nil => true
  | .cons a as, .cons b bs => Value.beq a b && ValueList.beq as bs
  | _, _ => false

/-- Entrywise Python `==` on dicts (the sources only ever compare
insertion-order-preserved copies, so entry order is respected). -/
def ValueDict.beq : ValueDict → ValueDict → Bool
  | .nil, .nil => true
  | .cons k v kvs, .cons k2 v2 kvs2 =>
      k == k2 && Value.beq v v2 && ValueDict.beq kvs kvs2
  | _, _ => false

end

/-- Lowercasing of a string, ASCII as in `Char.toLower` (the flows under
verification contain ASCII text only). -/
def strLower (s : String) : String :=
  String.mk (s.toList.map Char.toLower)

/-- Whether the character list `p` starts the character list `s`. -/
def charsLead : List Char → List Char → Bool
  | [], _ => true
  | _ :: _, [] => false
  | a :: as, b :: bs => a == b && charsLead as bs

/-- Python `needle in haystack` on strings (substring containment). -/
def charsContain (needle : List Char) : List Char → Bool
  | [] => needle.isEmpty
  | c :: rest => charsLead needle (c :: rest) || charsContain needle rest

/-- Python substring containment, string version. -/
def strContains (haystack needle : String) : Bool :=
  charsContain needle.toList haystack.toList

/-- Python `s.endswith(suf)`. -/
def strEndsWith (s suf : String) : Bool :=
  charsLead suf.toList.reverse s.toList.reverse

/-- Python `field_path.split('.')` (single-character separator). -/
def splitDotAux : List Char → List Char → List String
  | [], cur => [String.mk cur.reverse]
  | '.' :: rest, cur => String.mk cur.reverse :: splitDotAux rest []
  | c :: rest, cur => splitDotAux rest (c :: cur)

/-- Python `field_path.split('.')`. -/
def splitDot (s : String) : List String :=
  splitDotAux s.toList []

/-- Numeric value of a list of decimal digit characters (Python `int` on
a digits-only string). -/
def digitsToNat (ds : List Char) : Nat :=
  ds.foldl (fun n c => n * 10 + (c.toNat - 48)) 0

/-- Decimal digit characters of a natural number; the first argument is
fuel (≥ the number of digits), which keeps the recursion structural. -/
def natToStrAux : Nat → Nat → List Char
  | 0, _ => []
  | fuel + 1, n =>
      if n < 10 then [Char.ofNat (n + 48)]
      else natToStrAux fuel (n / 10) ++ [Char.ofNat (n % 10 + 48)]

/-- Decimal rendering of a natural number (Python `str(n)` / f-strings). -/
def natToStr (n : Nat) : String :=
  String.mk (natToStrAux (n + 1) n)

mutual

/-- Model of Python `repr(v)`.  Exact for strings, booleans, `None` and
integers; for floats, nested containers and dicts it is a stand-in (the
sources use `repr` only to build human-readable assertion messages, which
no verified property inspects). -/
def Value.pyRepr : Value → String
  | .null => "None"
  | .bool true => "True"
  | .bool false => "False"
  | .int n => intToStr n
  | .float q => intToStr q.num ++ "/" ++ natToStr q.den
  | .str s => "'" ++ s ++ "'"
  | .list vs => "[" ++ joinCommaList vs ++ "]"
  | .dict kvs => "\x7b" ++ joinCommaDict kvs ++ "\x7d"

/-- Decimal rendering of an integer. -/
def intToStr : Int → String
  | .ofNat n => natToStr n
  | .negSucc n => "-" ++ natToStr (n + 1)

/-- Comma-separated element reprs of a list. -/
def joinCommaList : ValueList → String
  | .nil => ""
  | .cons v .nil => v.pyRepr
  | .cons v vs => v.pyRepr ++ ", " ++ joinCommaList vs

/-- Comma-separated entry reprs of a dict. -/
def joinCommaDict : ValueDict → String
  | .nil => ""
  | .cons k v .nil => "'" ++ k ++ "': " ++ v.pyRepr
  | .cons k v kvs => "'" ++ k ++ "': " ++ v.pyRepr ++ ", " ++ joinCommaDict kvs

end

/-- Model of Python `str(v)`: identity on strings, `repr`-like otherwise. -/
def Value.pyStr : Value → String
  | .str s => s
  | v => v.pyRepr

/-- Python `' '.join(parts)`. -/
def joinSpace : List String → String
  | [] => ""
  | [s] => s
  | s :: rest => s ++ " " ++ joinSpace rest

/-- Characters Python `float(str)` strips from both ends. -/
def isPySpace (c : Char) : Bool :=
  c == ' ' || c == '\t' || c == '\n' || c == '\r'

/-- Model of Python `float(s)` on the decimal-literal fragment
`[ws] [sign] digits [. digits] [ws]` (no exponent/inf/nan, which the
flows under verification never produce); anything else is a raised
`ValueError`, embedded as `Except.error`. -/
def parseFloatStr (s : String) : Except String Rat :=
  let cs := (s.toList.dropWhile isPySpace).reverse.dropWhile isPySpace |>.reverse
  let (sign, body) : Rat × List Char :=
    match cs with
    | '+' :: rest => (1, rest)
    | '-' :: rest => (-1, rest)
    | rest => (1, rest)
  let intPart := body.takeWhile Char.isDigit
  let rest := body.drop intPart.length
  match rest with
  | [] =>
      if intPart.isEmpty then .error "could not convert string to float"
      else .ok (sign * (digitsToNat intPart : Rat))
  | '.' :: fracRest =>
      let fracPart := fracRest.takeWhile Char.isDigit
      if (fracRest.drop fracPart.length).isEmpty
          && !(intPart.isEmpty && fracPart.isEmpty) then
        .ok (sign * ((digitsToNat intPart : Rat)
              + (digitsToNat fracPart : Rat) / ((10 : Rat) ^ fracPart.length)))
      else .error "could not convert string to float"
  | _ => .error "could not convert string to float"

/-- Model of Python `float(v)`: numbers and booleans coerce, decimal
string literals parse, everything else raises (embedded as `.error`). -/
def pyFloat : Value → Except String Rat
  | .int n => .ok (n : Rat)
  | .float q => .ok q
  | .bool true => .ok 1
  | .bool false => .ok 0
  | .str s => parseFloatStr s
  | .null => .error "float() argument must be a string or a real number, not NoneType"
  | .list _ => .error "float() argument must be a string or a real number, not list"
  | .dict _ => .error "float() argument must be a string or a real number, not dict"

/-- Model of Python `re.match(pattern, s)` restricted to metacharacter-free
patterns, where it is exactly an anchored-at-start (leading-substring)
match; a pattern containing regex metacharacters is outside the model and
is embedded as `.error` (the rule evaluator catches every such error and
yields `false`; no flow under verification uses a non-literal pattern). -/
def reMatch (pattern s : String) : Except String Bool :=
  if pattern.toList.all (fun c =>
      !(c == '.' || c == '^' || c == '$' || c == '*' || c == '+' || c == '?'
        || c == '\\' || c == '[' || c == ']' || c == '(' || c == ')'
        || c == '|' || c == '\x7b' || c == '\x7d')) then
    .ok (charsLead pattern.toList s.toList)
  else .error "regex metacharacters are outside the embedding"

/-- ValidationOperator: the operator kinds the rule evaluator
(`assertion_validator.py`) dispatches on — eleven kinds including
CONTAINS_ALL and CONTAINS_ANY. -/
inductive ValidationOperator where
  | EQUALS
  | CONTAINS
  | CONTAINS_ALL
  | CONTAINS_ANY
  | GREATER_THAN
  | LESS_THAN
  | GREATER_EQUAL
  | LESS_EQUAL
  | REGEX_MATCH
  | NOT_EQUALS
  | IN_LIST
  deriving DecidableEq

/-- AssertionLevel: severity levels for assertions. -/
inductive AssertionLevel where
  | CRITICAL
  | ERROR
  | WARNING
  deriving DecidableEq

instance : BEq AssertionLevel := ⟨fun a b => decide (a = b)⟩

/-- ValidationRule: a single validation rule.  The `field` is typed as a
string, matching the dataclass annotation `field: str`. -/
structure ValidationRule where
  field : String
  operator : ValidationOperator
  expected_value : Value
  assertion_level : AssertionLevel
  custom_message : Value
  deriving DecidableEq

/-- FlowStep: a single step in a conversation flow.  Fields whose Python
values are arbitrary JSON are typed `Value`. -/
structure FlowStep where
  step_id : Value
  user_input : Value
  expected_intent : Value
  expected_entities : Value
  expected_response_contains : Value
  validation_rules : List ValidationRule
  continue_on_failure : Value
  timeout_seconds : Value
  metadata : Value
  deriving DecidableEq

/-- FlowDefinition: a complete flow definition. -/
structure FlowDefinition where
  flow_id : Value
  flow_name : Value
  description : Value
  agent_id : Value
  language_code : Value
  steps : List FlowStep
  global_validation_rules : List ValidationRule
  success_criteria : ValueDict
  metadata : ValueDict
  deriving DecidableEq

/-- Model of `ValidationOperator(operator_str)` over the enum declared in
`json_parser.py`, which has exactly nine members (`equals`, `contains`,
`gt`, `lte`, `lt`, `gte`, `regex`, `not_equals`, `in`); a value outside
the enum raises `ValueError`, embedded as `none`.  In particular
`contains_all` and `contains_any` are not members of that enum. -/
def jsonEnumOperator : Value → Option ValidationOperator
  | .str "equals" => some .EQUALS
  | .str "contains" => some .CONTAINS
  | .str "gt" => some .GREATER_THAN
  | .str "lt" => some .LESS_THAN
  | .str "gte" => some .GREATER_EQUAL
  | .str "lte" => some .LESS_EQUAL
  | .str "regex" => some .REGEX_MATCH
  | .str "not_equals" => some .NOT_EQUALS
  | .str "in" => some .IN_LIST
  | _ => none

/-- Model of `AssertionLevel(level_str)`; unknown values raise
`ValueError`, embedded as `none`. -/
def jsonEnumLevel : Value → Option AssertionLevel
  | .str "critical" => some .CRITICAL
  | .str "error" => some .ERROR
  | .str "warning" => some .WARNING
  | _ => none

/-- FlowJSONParser._parse_validation_rule: parse one validation rule from
a rule dict.  A missing/falsy `field` raises `ValueError` (embedded as
`.error`); unknown operator/level strings fall back to EQUALS/CRITICAL.
The model additionally restricts `field` to strings, per the dataclass
annotation (a truthy non-string `field` would crash the validator later
in the Python source and occurs in no flow). -/
def parse_validation_rule (rule_data : ValueDict) : Except String ValidationRule := do
  let fieldV := (rule_data.get "field").getD .null
  if !fieldV.truthy then
    .error "Validation rule must have 'field'"
  else
    match fieldV with
    | .str fieldStr =>
      let operatorStr := (rule_data.get "operator").getD (.str "equals")
      let operator := (jsonEnumOperator operatorStr).getD .EQUALS
      let expectedValue :=
        match rule_data.get "expected_value" with
        | some v => v
        | none => (rule_data.get "value").getD .null
      let levelStr :=
        match rule_data.get "assertion_level" with
        | some v => v
        | none => (rule_data.get "level").getD (.str "critical")
      let level := (jsonEnumLevel levelStr).getD .CRITICAL
      let customMessage :=
        match rule_data.get "message" with
        | some v => v
        | none => (rule_data.get "custom_message").getD .null
      .ok { field := fieldStr, operator := operator,
            expected_value := expectedValue, assertion_level := level,
            custom_message := customMessage }
    | _ => .error "field is not a string (outside the embedding)"

/-- Rules contributed by one `validation_criteria` entry: a dict-valued
criterion supplies operator/expected/severity itself (spliced after the
`field` key, Python `{'field': field, **criteria}`); any other value is a
plain CRITICAL equality check. -/
def criteria_rule (fieldKey : String) (criteria : Value) :
    Except String ValidationRule :=
  match criteria with
  | .dict d => parse_validation_rule ((ValueDict.cons "field" (.str fieldKey) .nil).merge d)
  | v => .ok { field := fieldKey, operator := .EQUALS, expected_value := v,
               assertion_level := .CRITICAL, custom_message := .null }

/-- Rules from the `validation_criteria` mapping, in insertion order. -/
def criteria_rules : List (String × Value) → Except String (List ValidationRule)
  | [] => .ok []
  | (k, v) :: rest => do
      let r ← criteria_rule k v
      let rs ← criteria_rules rest
      .ok (r :: rs)

/-- Rules from the explicit `validation_rules` list; a non-dict entry
crashes `_parse_validation_rule` in the source (embedded as `.error`). -/
def explicit_rules : List Value → Except String (List ValidationRule)
  | [] => .ok []
  | .dict d :: rest => do
      let r ← parse_validation_rule d
      let rs ← explicit_rules rest
      .ok (r :: rs)
  | _ :: _ => .error "validation rule entry is not a dict"

/-- FlowJSONParser._parse_step: parse a single step dict.  The generated
default `step_id` is `step_<n>` where `n` is the number of validation
rules just assembled for the step. -/
def parse_step (step_data : ValueDict) : Except String FlowStep :=
  let userInputData := (step_data.get "user_input").getD (.dict .nil)
  let userInput : Value :=
    match userInputData with
    | .str s => .str s
    | .dict d => (d.get "content").getD ((d.get "text").getD (.str ""))
    | v => .str v.pyStr
  match (match (step_data.get "validation_criteria").getD (.dict .nil) with
         | .dict kvs => criteria_rules kvs.items
         | _ => .error "validation_criteria is not a dict" :
         Except String (List ValidationRule)) with
  | .error e => .error e
  | .ok criteriaRules =>
  match (match (step_data.get "validation_rules").getD (.list .nil) with
         | .list l => explicit_rules l.toList
         | _ => .error "validation_rules is not a list" :
         Except String (List ValidationRule)) with
  | .error e => .error e
  | .ok explicitRules =>
  let validationRules := criteriaRules ++ explicitRules
  .ok { step_id := (step_data.get "step_id").getD
              (.str ("step_" ++ natToStr validationRules.length)),
        user_input := userInput,
        expected_intent := (step_data.get "expected_intent").getD .null,
        expected_entities := (step_data.get "expected_entities").getD (.dict .nil),
        expected_response_contains :=
            (step_data.get "expected_response_contains").getD (.list .nil),
        validation_rules := validationRules,
        continue_on_failure := (step_data.get "continue_on_failure").getD (.bool false),
        timeout_seconds := (step_data.get "timeout_seconds").getD (.int 30),
        metadata := (step_data.get "metadata").getD (.dict .nil) }

/-- FlowJSONParser.merge_flows: merge a base flow with an override flow.
Override steps replace base steps with a matching `step_id` in place and
are appended otherwise; global rule lists concatenate; `successCriteria`
and `metadata` merge with override precedence; `description` and
`agent_id` keep the base value when the override's is falsy; `flow_id`,
`flow_name` and `language_code` always come from the override. -/
def merge_flows (base_flow override_flow : FlowDefinition) : FlowDefinition :=
  let mergedSteps := override_flow.steps.foldl
    (fun ms ostep =>
      match ms.findIdx? (fun s => Value.beq s.step_id ostep.step_id) with
      | some i => ms.set i ostep
      | none => ms ++ [ostep])
    base_flow.steps
  { flow_id := override_flow.flow_id,
    flow_name := override_flow.flow_name,
    description := if override_flow.description.truthy then override_flow.description
                   else base_flow.description,
    agent_id := if override_flow.agent_id.truthy then override_flow.agent_id
                else base_flow.agent_id,
    language_code := override_flow.language_code,
    steps := mergedSteps,
    global_validation_rules :=
        base_flow.global_validation_rules ++ override_flow.global_validation_rules,
    success_criteria := base_flow.success_criteria.merge override_flow.success_criteria,
    metadata := base_flow.metadata.merge override_flow.metadata }

/-- PathSeg: one segment of a parsed field path — a field lookup, an
array wildcard (`[*]` or `[]`), or an array index (`[n]`). -/
inductive PathSeg where
  | fieldSeg (name : String)
  | wildcardSeg
  | indexSeg (i : Nat)
  deriving DecidableEq

/-- AssertionValidator._parse_array_path: the left-to-right scan of the
findall over `([^\[\]\.]+)|\[(\*|\d+|)\]` — a maximal run of characters
other than `[`, `]`, `.` is a field segment; `[*]` and `[]` are wildcard
segments; `[<digits>]` is an index segment; any other character advances
the scan by one.  The first argument is fuel (one unit is spent per
scanned position, so the character count suffices), keeping the recursion
structural. -/
def parse_array_path_aux : Nat → List Char → List PathSeg
  | 0, _ => []
  | _, [] => []
  | fuel + 1, '[' :: rest =>
      match rest with
      | '*' :: ']' :: rest2 => .wildcardSeg :: parse_array_path_aux fuel rest2
      | ']' :: rest2 => .wildcardSeg :: parse_array_path_aux fuel rest2
      | _ =>
          let ds := rest.takeWhile Char.isDigit
          if ds.isEmpty then parse_array_path_aux fuel rest
          else
            match rest.drop ds.length with
            | ']' :: rest2 => .indexSeg (digitsToNat ds) :: parse_array_path_aux fuel rest2
            | _ => parse_array_path_aux fuel rest
  | fuel + 1, c :: rest =>
      if c == ']' || c == '.' then parse_array_path_aux fuel rest
      else
        let run := (c :: rest).takeWhile
            (fun d => !(d == '[' || d == ']' || d == '.'))
        .fieldSeg (String.mk run) :: parse_array_path_aux fuel ((c :: rest).drop run.length)

/-- AssertionValidator._parse_array_path on a path string. -/
def parse_array_path (field_path : String) : List PathSeg :=
  parse_array_path_aux field_path.toList.length field_path.toList

/-- One segment step over the working set of values: field segments keep
dict-valued items' non-None lookups, wildcards flatten sequence-valued
items (non-sequences pass through), index segments keep the in-bounds
element of sequence-valued items. -/
def apply_segment (cur : List Value) : PathSeg → List Value
  | .fieldSeg name =>
      cur.filterMap (fun v =>
        match v with
        | .dict kvs =>
            match kvs.get name with
            | some .null => none
            | some x => some x
            | none => none
        | _ => none)
  | .wildcardSeg =>
      cur.foldr (fun v acc =>
        (match v with
         | .list vs => vs.toList
         | x => [x]) ++ acc) []
  | .indexSeg i =>
      cur.filterMap (fun v =>
        match v with
        | .list vs => vs.toList.get? i
        | _ => none)

/-- AssertionValidator._extract_with_array_notation (renamed to avoid a
keyword): run the parsed segments over the working set, then post-process —
a path ending in a `text` lookup stringifies the truthy survivors, joins
them with single spaces and lower-cases the result; otherwise an empty
working set is `None`, a singleton is unwrapped, and anything else is the
list itself. -/
def extract_array_path (data : ValueDict) (field_path : String) : Value :=
  let segments := parse_array_path field_path
  if segments.isEmpty then .null
  else
    match segments.foldl apply_segment [Value.dict data] with
    | [] => .null
    | current =>
        if strEndsWith field_path ".text" || strEndsWith field_path "[*].text" then
          .str (strLower (joinSpace ((current.filter Value.truthy).map Value.pyStr)))
        else
          match current with
          | [v] => v
          | vs => .list (ValueList.ofList vs)

/-- AssertionValidator._extract_simple_path's traversal loop: descend
through dicts by key; a missing key or stored `None` is `None`; a list
reached without array syntax is returned as-is; anything else is `None`. -/
def simple_path_loop : Value → List String → Value
  | v, [] => v
  | .dict kvs, p :: ps =>
      match kvs.get p with
      | none => .null
      | some .null => .null
      | some v' => simple_path_loop v' ps
  | .list vs, _ :: _ => .list vs
  | _, _ :: _ => .null

/-- AssertionValidator._extract_simple_path. -/
def extract_simple_path (data : ValueDict) (field_path : String) : Value :=
  simple_path_loop (.dict data) (splitDot field_path)

/-- AssertionValidator._extract_field_value: apply the whole-path
shortcuts (`response_messages` and `response_text` alias the joined
message texts; bare `parameters` stays as-is), return the key list for a
bare `parameters` path, and dispatch on the presence of `[` between
array-path and simple-path extraction. -/
def extract_field_value (data : ValueDict) (field_path : String) : Value :=
  let fp := if field_path == "response_messages" || field_path == "response_text"
            then "response_messages[*].text" else field_path
  if fp == "parameters" then
    match data.get "parameters" with
    | some (.dict kvs) => .list (ValueList.ofList (kvs.keys.map Value.str))
    | some v => v
    | none => .list .nil
  else if fp.toList.contains '[' then extract_array_path data fp
  else extract_simple_path data fp

/-- AssertionValidator._compare_values, body of its `try` block: the
dispatch over the eleven operators, with each operation that can raise a
Python exception embedded in `Except` (float coercion of non-numeric
values, regex evaluation outside the modelled fragment). -/
def compare_values_body (actual expected : Value) :
    ValidationOperator → Except String Bool
  | .EQUALS => .ok (Value.beq actual expected)
  | .NOT_EQUALS => .ok (!Value.beq actual expected)
  | .CONTAINS =>
      match actual with
      | .str s => .ok (strContains (strLower s) (strLower expected.pyStr))
      | .list vs => .ok (vs.toList.any (fun x => Value.beq x expected))
      | _ => .ok false
  | .CONTAINS_ALL =>
      match expected with
      | .list es =>
          match actual with
          | .str s => .ok (es.toList.all
              (fun item => strContains (strLower s) (strLower item.pyStr)))
          | .list vs => .ok (es.toList.all
              (fun item => vs.toList.any (fun x => Value.beq x item)))
          | _ => .ok false
      | _ => .ok false
  | .CONTAINS_ANY =>
      match expected with
      | .list es =>
          match actual with
          | .str s => .ok (es.toList.any
              (fun item => strContains (strLower s) (strLower item.pyStr)))
          | .list vs => .ok (es.toList.any
              (fun item => vs.toList.any (fun x => Value.beq x item)))
          | _ => .ok false
      | _ => .ok false
  | .GREATER_THAN => do
      let a ← pyFloat actual
      let e ← pyFloat expected
      .ok (decide (e < a))
  | .LESS_THAN => do
      let a ← pyFloat actual
      let e ← pyFloat expected
      .ok (decide (a < e))
  | .GREATER_EQUAL => do
      let a ← pyFloat actual
      let e ← pyFloat expected
      .ok (decide (e ≤ a))
  | .LESS_EQUAL => do
      let a ← pyFloat actual
      let e ← pyFloat expected
      .ok (decide (a ≤ e))
  | .REGEX_MATCH =>
      match actual with
      | .str s => reMatch expected.pyStr s
      | _ => .ok false
  | .IN_LIST =>
      match expected with
      | .list es => .ok (es.toList.any (fun x => Value.beq x actual))
      | _ => .ok false

/-- AssertionValidator._compare_values: the `try`/`except` wrapper — a
raised comparison exception is caught and yields `false`. -/
def compare_values (actual expected : Value) (operator : ValidationOperator) : Bool :=
  match compare_values_body actual expected operator with
  | .ok b => b
  | .error _ => false

/-- AssertionResult: result of a single assertion. -/
structure AssertionResult where
  rule : ValidationRule
  passed : Bool
  actual_value : Value
  expected_value : Value
  message : Value
  assertion_level : AssertionLevel
  deriving DecidableEq

/-- StepValidationResult: result of validating a single step. -/
structure StepValidationResult where
  step_id : Value
  passed : Bool
  assertions : List AssertionResult
  critical_failures : Nat
  errors : Nat
  warnings : Nat
  execution_time_ms : Value
  should_stop : Bool
  deriving DecidableEq

/-- AssertionValidator._generate_default_message's operator phrase. -/
def operator_phrase : ValidationOperator → String
  | .EQUALS => "should equal"
  | .NOT_EQUALS => "should not equal"
  | .CONTAINS => "should contain"
  | .CONTAINS_ALL => "should contain all of"
  | .CONTAINS_ANY => "should contain any of"
  | .GREATER_THAN => "should be greater than"
  | .LESS_THAN => "should be less than"
  | .GREATER_EQUAL => "should be >= "
  | .LESS_EQUAL => "should be <="
  | .REGEX_MATCH => "should match pattern"
  | .IN_LIST => "should be in"

/-- Comma-and-space join of rendered values (display helper). -/
def joinCommaStrs : List String → String
  | [] => ""
  | [s] => s
  | s :: rest => s ++ ", " ++ joinCommaStrs rest

/-- AssertionValidator._generate_default_message: build the default
assertion message, truncating long strings and collections for display. -/
def generate_default_message (field : String) (actual expected : Value)
    (operator : ValidationOperator) (passed : Bool) : String :=
  let status := if passed then "✓" else "✗"
  let expectedDisplay :=
    match expected with
    | .list es =>
        if es.toList.length > 5 then
          "[" ++ joinCommaStrs ((es.toList.take 5).map Value.pyRepr) ++ ", ...]"
        else "[" ++ joinCommaStrs (es.toList.map Value.pyRepr) ++ "]"
    | v => v.pyRepr
  let actualDisplay :=
    match actual with
    | .str s =>
        if s.toList.length > 50 then
          Value.pyRepr (.str (String.mk (s.toList.take 50) ++ "..."))
        else Value.pyRepr (.str s)
    | .list vs =>
        if vs.toList.length > 5 then
          "[" ++ joinCommaStrs ((vs.toList.take 5).map Value.pyRepr) ++ ", ...]"
        else Value.pyRepr (.list vs)
    | v => v.pyRepr
  status ++ " " ++ field ++ " " ++ operator_phrase operator ++ " "
    ++ expectedDisplay ++ " (actual: " ++ actualDisplay ++ ")"

/-- AssertionValidator._validate_rule: extract the actual value, compare,
and build the AssertionResult (a falsy `custom_message` selects the
generated default message, as Python's `if rule.custom_message:` does). -/
def validate_rule (step_result : ValueDict) (rule : ValidationRule) :
    AssertionResult :=
  let actualValue := extract_field_value step_result rule.field
  let expectedValue := rule.expected_value
  let passed := compare_values actualValue expectedValue rule.operator
  let message : Value :=
    if rule.custom_message.truthy then rule.custom_message
    else .str (generate_default_message rule.field actualValue expectedValue
                rule.operator passed)
  { rule := rule, passed := passed, actual_value := actualValue,
    expected_value := expectedValue, message := message,
    assertion_level := rule.assertion_level }

/-- StepAcc: the loop state of `validate_step` (growing assertion list,
the three severity counters, and the stop flag). -/
structure StepAcc where
  assertions : List AssertionResult
  critical_failures : Nat
  errors : Nat
  warnings : Nat
  should_stop : Bool

/-- One iteration of `validate_step`'s rule loop: record the assertion,
then bump the counter matching a failed assertion's severity; a failed
CRITICAL assertion sets the stop flag when `stop_on_critical` holds. -/
def step_acc_update (stop_on_critical : Bool) (acc : StepAcc)
    (result : AssertionResult) : StepAcc :=
  let acc1 := { acc with assertions := acc.assertions ++ [result] }
  if result.passed then acc1
  else
    match result.assertion_level with
    | .CRITICAL =>
        { acc1 with critical_failures := acc1.critical_failures + 1,
                    should_stop := if stop_on_critical then true else acc1.should_stop }
    | .ERROR => { acc1 with errors := acc1.errors + 1 }
    | .WARNING => { acc1 with warnings := acc1.warnings + 1 }

/-- The rule loop of `validate_step`. -/
def validate_step_loop (step_result : ValueDict) (stop_on_critical : Bool) :
    List ValidationRule → StepAcc → StepAcc
  | [], acc => acc
  | rule :: rest, acc =>
      validate_step_loop step_result stop_on_critical rest
        (step_acc_update stop_on_critical acc (validate_rule step_result rule))

/-- AssertionValidator.validate_step: evaluate every rule in order,
count failures by severity, and report `passed` iff no CRITICAL and no
ERROR failure occurred. -/
def validate_step (step_result : ValueDict) (validation_rules : List ValidationRule)
    (stop_on_critical : Bool) : StepValidationResult :=
  let acc := validate_step_loop step_result stop_on_critical validation_rules
      { assertions := [], critical_failures := 0, errors := 0, warnings := 0,
        should_stop := false }
  { step_id := (step_result.get "step_id").getD (.str "unknown"),
    passed := acc.critical_failures == 0 && acc.errors == 0,
    assertions := acc.assertions,
    critical_failures := acc.critical_failures,
    errors := acc.errors,
    warnings := acc.warnings,
    execution_time_ms := (step_result.get "execution_time_ms").getD (.int 0),
    should_stop := acc.should_stop }

/-!
Helper predicates and invariants for the `validate_step` rule loop, and
helper lemmas for flow merging.
-/

/-- Whether evaluating `rule` on `step_result` yields a failed CRITICAL
assertion. -/
def fails_critical (step_result : ValueDict) (rule : ValidationRule) : Bool :=
  !(validate_rule step_result rule).passed
    && (validate_rule step_result rule).assertion_level == .CRITICAL

/-- Whether evaluating `rule` on `step_result` yields a failed ERROR
assertion. -/
def fails_error (step_result : ValueDict) (rule : ValidationRule) : Bool :=
  !(validate_rule step_result rule).passed
    && (validate_rule step_result rule).assertion_level == .ERROR

/-- Whether evaluating `rule` on `step_result` yields a failed WARNING
assertion. -/
def fails_warning (step_result : ValueDict) (rule : ValidationRule) : Bool :=
  !(validate_rule step_result rule).passed
    && (validate_rule step_result rule).assertion_level == .WARNING

/-- Effect of one loop iteration on each accumulator component. -/
theorem step_acc_update_spec (soc : Bool) (acc : StepAcc) (res : AssertionResult) :
    (step_acc_update soc acc res).assertions = acc.assertions ++ [res] ∧
    (step_acc_update soc acc res).critical_failures
      = acc.critical_failures
        + (if !res.passed && res.assertion_level == .CRITICAL then 1 else 0) ∧
    (step_acc_update soc acc res).errors
      = acc.errors + (if !res.passed && res.assertion_level == .ERROR then 1 else 0) ∧
    (step_acc_update soc acc res).warnings
      = acc.warnings + (if !res.passed && res.assertion_level == .WARNING then 1 else 0) ∧
    (step_acc_update soc acc res).should_stop
      = (acc.should_stop || (soc && (!res.passed && res.assertion_level == .CRITICAL))) := by
  rcases res with ⟨rule, passed, av, ev, msg, lvl⟩
  cases passed <;> cases lvl <;> cases soc <;>
    simp [step_acc_update, BEq.beq]

/-- Invariant of the whole rule loop: the assertion list grows by one
entry per rule in order, the counters add the per-severity failure
counts, and the stop flag is raised exactly when `stop_on_critical` holds
and some rule fails critically. -/
theorem validate_step_loop_spec (record : ValueDict) (soc : Bool) :
    ∀ (rules : List ValidationRule) (acc : StepAcc),
    (validate_step_loop record soc rules acc).assertions
      = acc.assertions ++ rules.map (validate_rule record) ∧
    (validate_step_loop record soc rules acc).critical_failures
      = acc.critical_failures + rules.countP (fails_critical record) ∧
    (validate_step_loop record soc rules acc).errors
      = acc.errors + rules.countP (fails_error record) ∧
    (validate_step_loop record soc rules acc).warnings
      = acc.warnings + rules.countP (fails_warning record) ∧
    (validate_step_loop record soc rules acc).should_stop
      = (acc.should_stop || (soc && rules.any (fails_critical record)))
  | [], acc => by simp [validate_step_loop]
  | rule :: rest, acc => by
      have hupd := step_acc_update_spec soc acc (validate_rule record rule)
      have hrec := validate_step_loop_spec record soc rest
        (step_acc_update soc acc (validate_rule record rule))
      obtain ⟨u1, u2, u3, u4, u5⟩ := hupd
      obtain ⟨r1, r2, r3, r4, r5⟩ := hrec
      refine ⟨?_, ?_, ?_, ?_, ?_⟩
      · simp [validate_step_loop, r1, u1]
      · simp [validate_step_loop, r2, u2, List.countP_cons, fails_critical]
        omega
      · simp [validate_step_loop, r3, u3, List.countP_cons, fails_error]
        omega
      · simp [validate_step_loop, r4, u4, List.countP_cons, fails_warning]
        omega
      · simp [validate_step_loop, r5, u5, List.any_cons, fails_critical]
        cases soc <;> simp [Bool.or_assoc]

/-- Overriding values from an empty dict changes nothing. -/
theorem overrideVals_nil : (a : ValueDict) → a.overrideVals .nil = a
  | .nil => rfl
  | .cons k v kvs => by simp [ValueDict.overrideVals, ValueDict.get, overrideVals_nil kvs]

/-- Appending an empty dict changes nothing. -/
theorem append_nilr : (a : ValueDict) → a.append .nil = a
  | .nil => rfl
  | .cons k v kvs => by simp [ValueDict.append, append_nilr kvs]

/-- Python `{**a}` (merging with an empty override) is `a` itself. -/
theorem merge_nil (a : ValueDict) : a.merge .nil = a := by
  simp [ValueDict.merge, overrideVals_nil, ValueDict.restNotIn, append_nilr]

/-- Helper for the generated-step-id claim: a parsed step without a
`step_id` key carries the id `step_<n>` with `n` its own rule count. -/
theorem parse_step_generated_id (d : ValueDict) (st : FlowStep)
    (hok : parse_step d = .ok st) (hnone : d.get "step_id" = none) :
    st.step_id = .str ("step_" ++ natToStr st.validation_rules.length) := by
  unfold parse_step at hok
  split at hok
  · simp at hok
  · split at hok
    · simp at hok
    · rw [hnone] at hok
      simp only [Option.getD_none, Except.ok.injEq] at hok
      subst hok
      rfl

/-!
Concrete inputs used by the evaluated theorems and witnesses: the
turn-result record of the spec's worked examples and small flows/steps.
-/

/-- The record `{response_messages: [{type: "text", text: "Hello there!"},
{type: "text", text: "I can help with billing."}]}`. -/
def exampleRecord : ValueDict :=
  .cons "response_messages"
    (.list (.cons (.dict (.cons "type" (.str "text")
        (.cons "text" (.str "Hello there!") .nil)))
      (.cons (.dict (.cons "type" (.str "text")
        (.cons "text" (.str "I can help with billing.") .nil)))
        .nil)))
    .nil

/-- A record whose `parameters` field is `{name: "John", email: "j@x.com"}`. -/
def exampleParams : ValueDict :=
  .cons "parameters"
    (.dict (.cons "name" (.str "John") (.cons "email" (.str "j@x.com") .nil)))
    .nil

/-- A concrete base flow with one step and non-empty scalar fields. -/
def exampleBaseFlow : FlowDefinition :=
  { flow_id := .str "f1", flow_name := .str "Flow One", description := .str "d",
    agent_id := .str "agent", language_code := .str "en",
    steps := [{ step_id := .str "s1", user_input := .str "hi",
                expected_intent := .null, expected_entities := .dict .nil,
                expected_response_contains := .list .nil, validation_rules := [],
                continue_on_failure := .bool false, timeout_seconds := .int 30,
                metadata := .dict .nil }],
    global_validation_rules := [], success_criteria := .nil, metadata := .nil }

/-- An empty override flow: no steps, no global rules, empty mappings,
empty/absent scalar fields. -/
def exampleEmptyOverride : FlowDefinition :=
  { flow_id := .str "", flow_name := .str "", description := .str "",
    agent_id := .null, language_code := .str "en",
    steps := [], global_validation_rules := [], success_criteria := .nil,
    metadata := .nil }

/-- A step dict with no `step_id` key and no validation rules. -/
def exampleStepA : ValueDict := .cons "user_input" (.str "Hello") .nil

/-- A second rule-less step dict with no `step_id` key. -/
def exampleStepB : ValueDict := .cons "user_input" (.str "Goodbye") .nil

/-!
The claims.
-/

/-- C1: for every step-result record and list of validation rules,
`validate_step` reports `should_stop = true` exactly when
`stop_on_critical` holds (the step's `continue_on_failure` negated) and
at least one reported assertion failed at CRITICAL severity; with no
failed CRITICAL assertion, or with `stop_on_critical` false, it reports
`should_stop = false`. -/
theorem validate_step_should_stop_iff (record : ValueDict)
    (rules : List ValidationRule) (soc : Bool) :
    (validate_step record rules soc).should_stop = true ↔
      (soc = true ∧ ∃ a ∈ (validate_step record rules soc).assertions,
        a.passed = false ∧ a.assertion_level = .CRITICAL) := by
  obtain ⟨h1, h2, h3, h4, h5⟩ := validate_step_loop_spec record soc rules
    { assertions := [], critical_failures := 0, errors := 0, warnings := 0,
      should_stop := false }
  show _ ↔ _ ∧ ∃ a ∈ _, _
  simp only [validate_step, h1, h5, List.nil_append, Bool.false_or]
  constructor
  · intro h
    rw [Bool.and_eq_true, List.any_eq_true] at h
    obtain ⟨hsoc, r, hr, hfc⟩ := h
    refine ⟨hsoc, validate_rule record r, List.mem_map_of_mem _ hr, ?_, ?_⟩
    · simp [fails_critical] at hfc; exact hfc.1
    · simp [fails_critical, BEq.beq] at hfc
      rcases hfc with ⟨_, h2⟩
      revert h2; cases (validate_rule record r).assertion_level <;> simp
  · rintro ⟨hsoc, a, ha, hfail, hcrit⟩
    obtain ⟨r, hr, rfl⟩ := List.mem_map.mp ha
    rw [Bool.and_eq_true, List.any_eq_true]
    refine ⟨hsoc, r, hr, ?_⟩
    simp [fails_critical, hfail, hcrit, BEq.beq]

/-- C2: for every step-result record and list of validation rules,
`validate_step` reports `passed = true` iff its count of failed CRITICAL
assertions and its count of failed ERROR assertions are both zero (so
failed WARNING assertions never affect `passed`); the two counter fields
are exactly those failure counts over the reported assertions. -/
theorem validate_step_passed_iff (record : ValueDict)
    (rules : List ValidationRule) (soc : Bool) :
    ((validate_step record rules soc).passed = true ↔
      (validate_step record rules soc).critical_failures = 0
        ∧ (validate_step record rules soc).errors = 0) ∧
    (validate_step record rules soc).critical_failures
      = ((validate_step record rules soc).assertions.countP
          (fun a => !a.passed && a.assertion_level == .CRITICAL)) ∧
    (validate_step record rules soc).errors
      = ((validate_step record rules soc).assertions.countP
          (fun a => !a.passed && a.assertion_level == .ERROR)) := by
  obtain ⟨h1, h2, h3, h4, h5⟩ := validate_step_loop_spec record soc rules
    { assertions := [], critical_failures := 0, errors := 0, warnings := 0,
      should_stop := false }
  refine ⟨?_, ?_, ?_⟩
  · simp only [validate_step, h2, h3]
    simp
  · simp only [validate_step, h1, h2, List.nil_append, Nat.zero_add,
      List.countP_map]
    rfl
  · simp only [validate_step, h1, h3, List.nil_append, Nat.zero_add,
      List.countP_map]
    rfl

/-- C3: the comparison dispatch of `_compare_values` is total — for every
actual value, expected value and operator it either completes and returns
that boolean, or raises internally (embedded as `Except.error`: a type
mismatch or non-numeric float coercion) in which case `compare_values`
catches the exception and returns `false`.  Either way a boolean comes
back. -/
theorem compare_values_never_raises (actual expected : Value)
    (operator : ValidationOperator) :
    (∃ b : Bool, compare_values_body actual expected operator = .ok b
        ∧ compare_values actual expected operator = b)
      ∨ (∃ msg, compare_values_body actual expected operator = .error msg
        ∧ compare_values actual expected operator = false) := by
  cases h : compare_values_body actual expected operator with
  | ok b => exact .inl ⟨b, rfl, by simp [compare_values, h]⟩
  | error msg => exact .inr ⟨msg, rfl, by simp [compare_values, h]⟩

/-- C4 (evaluation at the failing input): on the two-message record, the
index path `response_messages[0].text` extracts the LOWER-CASED string
`"hello there!"`, not `"Hello there!"` — the post-processing step
lower-cases every path ending in `.text`, index access included, which
contradicts the module's own standalone test asserting case
preservation. -/
theorem extract_index_path_text_lowercased :
    extract_field_value exampleRecord "response_messages[0].text"
        = .str "hello there!"
      ∧ extract_field_value exampleRecord "response_messages[0].text"
        ≠ .str "Hello there!" :=
  ⟨rfl, by decide⟩

/-- C5: on the two-message record, the wildcard path
`response_messages[*].text` extracts all message texts stringified,
joined by single spaces and lower-cased. -/
theorem extract_wildcard_text_joined_lowercased :
    extract_field_value exampleRecord "response_messages[*].text"
      = .str "hello there! i can help with billing." := rfl

/-- C6: whenever the record's `parameters` field holds a mapping, the
bare path `parameters` extracts the list of that mapping's keys (in
insertion order), not the mapping itself. -/
theorem extract_bare_parameters_keys (data : ValueDict) (kvs : ValueDict)
    (h : data.get "parameters" = some (.dict kvs)) :
    extract_field_value data "parameters"
      = .list (ValueList.ofList (kvs.keys.map Value.str)) := by
  simp only [extract_field_value,
    show ("parameters" == "response_messages") = false from rfl,
    show ("parameters" == "response_text") = false from rfl,
    show ("parameters" == "parameters") = true from rfl,
    Bool.false_or, Bool.or_false, if_false, if_true, h]
  simp

/-- Witness for C6 at the record with `parameters = {name, email}`: the
extracted collection is the key list `["name", "email"]` — as a set,
`{name, email}`. -/
theorem extract_bare_parameters_keys_witness :
    exampleParams.get "parameters"
        = some (.dict (.cons "name" (.str "John") (.cons "email" (.str "j@x.com") .nil)))
      ∧ extract_field_value exampleParams "parameters"
        = .list (.cons (.str "name") (.cons (.str "email") .nil)) :=
  ⟨rfl, extract_bare_parameters_keys exampleParams
    (.cons "name" (.str "John") (.cons "email" (.str "j@x.com") .nil)) rfl⟩

/-- C7 (evaluation at the failing inputs): the operator strings
`contains_all` and `contains_any` are NOT members of the enum declared in
`json_parser.py`, so `_parse_validation_rule` silently falls back to
EQUALS for both — they do not parse to the CONTAINS_ALL / CONTAINS_ANY
kinds the rule evaluator implements. -/
theorem parse_rule_contains_all_any_fallback :
    jsonEnumOperator (.str "contains_all") = none
      ∧ jsonEnumOperator (.str "contains_any") = none
      ∧ (parse_validation_rule
          (.cons "field" (.str "x") (.cons "operator" (.str "contains_all") .nil))).map
          (fun r => r.operator) = .ok .EQUALS
      ∧ (parse_validation_rule
          (.cons "field" (.str "x") (.cons "operator" (.str "contains_any") .nil))).map
          (fun r => r.operator) = .ok .EQUALS :=
  ⟨rfl, rfl, rfl, rfl⟩

/-- C8: `validate_step` evaluates every rule with no mid-step
short-circuiting — the reported assertion list is exactly one
`AssertionResult` per input rule, in rule order, for every record, rule
list and stop flag (in particular even when an earlier CRITICAL failure
already set the stop flag). -/
theorem validate_step_assertions_map (record : ValueDict)
    (rules : List ValidationRule) (soc : Bool) :
    (validate_step record rules soc).assertions
      = rules.map (validate_rule record) := by
  obtain ⟨h1, _, _, _, _⟩ := validate_step_loop_spec record soc rules
    { assertions := [], critical_failures := 0, errors := 0, warnings := 0,
      should_stop := false }
  simpa [validate_step] using h1

/-- C9 (counterexample): merging a flow with an empty override is NOT the
identity — `flow_id`, `flow_name` and `language_code` always come from
the override, so the merged flow of `exampleBaseFlow` with the empty
override (whose `flow_id` is the empty string) differs from the base. -/
theorem merge_flows_empty_override_counterexample :
    merge_flows exampleBaseFlow exampleEmptyOverride ≠ exampleBaseFlow := by
  decide

/-- C9 (amended): merging any flow `F` with an empty override (no steps,
no global rules, empty mappings, falsy `description` and `agent_id`)
returns `F` itself provided the override also carries `F`'s `flow_id`,
`flow_name` and `language_code` — those three scalars are always taken
from the override, all other components round-trip. -/
theorem merge_flows_empty_override (F eo : FlowDefinition)
    (h1 : eo.steps = []) (h2 : eo.global_validation_rules = [])
    (h3 : eo.success_criteria = .nil) (h4 : eo.metadata = .nil)
    (h5 : eo.description.truthy = false) (h6 : eo.agent_id.truthy = false)
    (h7 : eo.flow_id = F.flow_id) (h8 : eo.flow_name = F.flow_name)
    (h9 : eo.language_code = F.language_code) :
    merge_flows F eo = F := by
  obtain ⟨fid, fname, fdesc, fagent, flang, fsteps, frules, fcrit, fmeta⟩ := F
  simp_all [merge_flows, merge_nil]

/-- Witness for C9 (amended) at `exampleBaseFlow` and the empty override
sharing its `flow_id` and `flow_name`. -/
theorem merge_flows_empty_override_witness :
    merge_flows exampleBaseFlow
      { exampleEmptyOverride with flow_id := .str "f1", flow_name := .str "Flow One" }
      = exampleBaseFlow :=
  merge_flows_empty_override _ _ rfl rfl rfl rfl rfl rfl rfl rfl rfl

/-- C10: a step parsed without a `step_id` key gets the generated id
`step_<n>` where `n` is the number of validation rules assembled for the
step (not its position in the flow); consequently any two such steps with
equal rule counts receive identical generated ids, so the default is not
unique within a flow. -/
theorem parse_step_default_step_id (d : ValueDict) (st : FlowStep)
    (hok : parse_step d = .ok st) (hnone : d.get "step_id" = none) :
    st.step_id = .str ("step_" ++ natToStr st.validation_rules.length)
      ∧ ∀ (d2 : ValueDict) (st2 : FlowStep), parse_step d2 = .ok st2 →
          d2.get "step_id" = none →
          st2.validation_rules.length = st.validation_rules.length →
          st2.step_id = st.step_id := by
  refine ⟨parse_step_generated_id d st hok hnone, fun d2 st2 h2 hn2 hlen => ?_⟩
  rw [parse_step_generated_id d2 st2 h2 hn2,
      parse_step_generated_id d st hok hnone, hlen]

/-- Witness for C10: the two rule-less step dicts `exampleStepA` and
`exampleStepB` both parse without a `step_id` key and both receive the
same generated id `step_0`. -/
theorem parse_step_default_step_id_witness :
    exampleStepA.get "step_id" = none ∧ exampleStepB.get "step_id" = none ∧
    ∃ stA stB, parse_step exampleStepA = .ok stA
      ∧ parse_step exampleStepB = .ok stB
      ∧ stA.step_id = .str "step_0" ∧ stB.step_id = stA.step_id := by
  obtain ⟨stA, hA⟩ : ∃ s, parse_step exampleStepA = .ok s := ⟨_, rfl⟩
  obtain ⟨stB, hB⟩ : ∃ s, parse_step exampleStepB = .ok s := ⟨_, rfl⟩
  have hlenA : stA.validation_rules.length = 0 := by
    have h0 : (parse_step exampleStepA).map
        (fun s : FlowStep => s.validation_rules.length) = Except.ok 0 := rfl
    rw [hA] at h0
    simpa [Except.map] using h0
  have hlenB : stB.validation_rules.length = 0 := by
    have h0 : (parse_step exampleStepB).map
        (fun s : FlowStep => s.validation_rules.length) = Except.ok 0 := rfl
    rw [hB] at h0
    simpa [Except.map] using h0
  have h1 := parse_step_default_step_id exampleStepA stA hA rfl
  refine ⟨rfl, rfl, stA, stB, hA, hB, ?_, ?_⟩
  · rw [h1.1, hlenA]; rfl
  · exact h1.2 exampleStepB stB hB rfl (by rw [hlenA, hlenB])
